import Mathlib

/-!
Verification of the batch upload orchestration engine of vtex-files-manager.

This file is a shallow embedding of the Go sources:
  cmd/batch.go            (discovery `findImageFiles`, scheduler
                           `uploadFilesWithConcurrency`)
  pkg/client/filepicker.go (validation `ValidateFile`, the CMS FilePicker
                           backend `UploadFile` / `uploadFilePicker`)
  pkg/client/graphql.go    (the GraphQL backend `UploadFile` / `uploadGraphQL`)
  pkg/logger/upload_logger.go (`LogUpload`, `ReadLogs`)

The local filesystem is modelled as a finite association map from paths to
entries; HTTP exchanges are modelled by an outcome value (transport error, or
a response carrying the numeric status, the raw body text and the result of
JSON-decoding that body).  Machine integers (file sizes, HTTP status codes)
are modelled as `Nat`/`Int`; none of the modelled code relies on overflow.
-/

namespace VFM

/-! ## Path helpers (Go `path/filepath`, unix separators) -/

/-- One step of `goExt`: walk the reversed character list of the path,
accumulating the characters already passed (which are the tail of the path);
Go's `filepath.Ext` returns the suffix beginning at the final dot in the
final slash-separated element, and the empty string when there is no dot. -/
def goExtAux : List Char → List Char → String
  | [], _ => ""
  | c :: rest, acc =>
    if c = '/' then ""
    else if c = '.' then String.mk ('.' :: acc)
    else goExtAux rest (c :: acc)

/-- Go `filepath.Ext` (unix path separator). -/
def goExt (p : String) : String := goExtAux p.data.reverse []

/-- Go `filepath.Base` (unix path separator): empty path gives ".", trailing
slashes are stripped, then everything up to and including the final slash is
removed; an all-slash path gives "/". -/
def goBase (p : String) : String :=
  if p = "" then "."
  else
    let r := p.data.reverse.dropWhile (fun c => c = '/')
    if r = [] then "/"
    else String.mk ((r.takeWhile (fun c => c ≠ '/')).reverse)

/-- ASCII lower-casing of one character; the Go code applies
`strings.ToLower` to file extensions, which are ASCII for the whole
supported set. -/
def asciiLowerChar (c : Char) : Char :=
  if 65 ≤ c.toNat ∧ c.toNat ≤ 90 then Char.ofNat (c.toNat + 32) else c

/-- ASCII lower-casing of a string (Go `strings.ToLower` restricted to the
ASCII range, which covers every extension the policy mentions). -/
def asciiToLower (s : String) : String := String.mk (s.data.map asciiLowerChar)

/-! ## Validation policy (pkg/client/filepicker.go, validation part) -/

/-- `MaxFileSize` from pkg/client: 5 MiB. -/
def MaxFileSize : Nat := 5 * 1024 * 1024

/-- `ValidExtensions` from pkg/client: the keys of the Go map (all keys map
to `true`, so the map is exactly this set). -/
def ValidExtensions : List String :=
  [".jpg", ".jpeg", ".png", ".gif", ".svg", ".webp",
   ".bmp", ".pdf", ".txt", ".json", ".css", ".js", ".xml"]

/-- A filesystem entry: a regular file with a byte size, or a directory. -/
inductive FSEntry where
  | file (size : Nat)
  | dir
deriving DecidableEq, Repr

/-- The local filesystem, modelled as a finite map from paths to entries;
`os.Stat` is association-list lookup.  Paths absent from the list do not
exist. -/
def FS := List (String × FSEntry)

/-- `os.Stat` on the modelled filesystem. -/
def statFS (fs : FS) (p : String) : Option FSEntry := List.lookup p fs

/-- The errors `ValidateFile` can produce, one constructor per
`fmt.Errorf` site in the Go function. -/
inductive ValidationError where
  | notFound (path : String)
  | isDirectory (path : String)
  | tooLarge (size : Nat)
  | emptyFile (path : String)
  | unsupportedType (ext : String)
deriving DecidableEq, Repr

/-- `ValidateFile` from pkg/client: stat the path (absent → not-found),
reject directories, reject sizes above `MaxFileSize`, reject empty files,
then require the lower-cased extension to be in `ValidExtensions`.  The Go
function additionally maps a stat failure that is not is-not-exist (for
example a permission error) to a distinct access error; the modelled
filesystem has no such failures. -/
def ValidateFile (fs : FS) (p : String) : Except ValidationError Unit :=
  match statFS fs p with
  | none => .error (.notFound p)
  | some .dir => .error (.isDirectory p)
  | some (.file size) =>
    if MaxFileSize < size then .error (.tooLarge size)
    else if size = 0 then .error (.emptyFile p)
    else
      let ext := asciiToLower (goExt p)
      if ValidExtensions.contains ext then .ok () else .error (.unsupportedType ext)

/-- C2: the Validator accepts exactly the existing regular files of positive
size at most 5 MiB whose lower-cased extension is supported, and each
rejection produces the matching error of the taxonomy (checks applied in the
order of the Go code: not-found, is-directory, too-large, empty,
unsupported-type).  The function is pure, so it has no side effect. -/
theorem validateFile_spec (fs : FS) (p : String) :
    (ValidateFile fs p = .ok () ↔
      ∃ size, statFS fs p = some (.file size) ∧ 0 < size ∧ size ≤ MaxFileSize ∧
        ValidExtensions.contains (asciiToLower (goExt p)) = true)
    ∧ (statFS fs p = none → ValidateFile fs p = .error (.notFound p))
    ∧ (statFS fs p = some .dir → ValidateFile fs p = .error (.isDirectory p))
    ∧ (∀ size, statFS fs p = some (.file size) → MaxFileSize < size →
        ValidateFile fs p = .error (.tooLarge size))
    ∧ (∀ size, statFS fs p = some (.file size) → size = 0 →
        ValidateFile fs p = .error (.emptyFile p))
    ∧ (∀ size, statFS fs p = some (.file size) → 0 < size → size ≤ MaxFileSize →
        ValidExtensions.contains (asciiToLower (goExt p)) = false →
        ValidateFile fs p = .error (.unsupportedType (asciiToLower (goExt p)))) := by
  refine ⟨?_, ?_, ?_, ?_, ?_, ?_⟩
  · constructor
    · intro h
      unfold ValidateFile at h
      cases hstat : statFS fs p with
      | none => rw [hstat] at h; exact absurd h (by simp)
      | some e =>
        cases e with
        | dir => rw [hstat] at h; exact absurd h (by simp)
        | file size =>
          rw [hstat] at h
          by_cases hbig : MaxFileSize < size
          · simp [hbig] at h
          · by_cases hzero : size = 0
            · simp [hbig, hzero] at h
            · by_cases hext : ValidExtensions.contains (asciiToLower (goExt p)) = true
              · exact ⟨size, rfl, Nat.pos_of_ne_zero hzero, Nat.le_of_not_lt hbig, hext⟩
              · simp [hbig, hzero] at h
                exact absurd h (by simpa using hext)
    · rintro ⟨size, hstat, hpos, hle, hext⟩
      have hmem : asciiToLower (goExt p) ∈ ValidExtensions := by simpa using hext
      unfold ValidateFile
      rw [hstat]
      simp [Nat.not_lt.mpr hle, Nat.pos_iff_ne_zero.mp hpos, hmem]
  · intro h; unfold ValidateFile; rw [h]
  · intro h; unfold ValidateFile; rw [h]
  · intro size h hbig; unfold ValidateFile; rw [h]; simp [hbig]
  · intro size h hzero
    subst hzero
    unfold ValidateFile; rw [h]
    simp [MaxFileSize]
  · intro size h hpos hle hext
    have hmem : asciiToLower (goExt p) ∉ ValidExtensions := by simpa using hext
    unfold ValidateFile; rw [h]
    simp [Nat.not_lt.mpr hle, Nat.pos_iff_ne_zero.mp hpos, hmem]

/-! ## Discovery (cmd/batch.go, findImageFiles) -/

/-- A directory tree as enumerated by the filesystem: `filepath.Walk` and
`os.ReadDir` both present each directory as an ordered list of named
children (the Go listing APIs sort by name; the order of the modelled entry
list is that enumeration order). -/
inductive FNode where
  | file
  | dir (entries : List (String × FNode))

/-- The recursive branch of `findImageFiles`: `filepath.Walk` visits every
node; non-directory nodes are kept when `ValidExtensions[filepath.Ext(path)]`
holds — note the Go code looks the raw extension up, without lower-casing. -/
def walkFiles (path : String) : FNode → List String
  | .file => if ValidExtensions.contains (goExt path) then [path] else []
  | .dir es => walkEntries path es
where
  walkEntries (path : String) : List (String × FNode) → List String
  | [] => []
  | (n, c) :: rest => walkFiles (path ++ "/" ++ n) c ++ walkEntries path rest

/-- All regular-file paths below a node, with no extension filtering (used
to state what `walkFiles` keeps). -/
def allFiles (path : String) : FNode → List String
  | .file => [path]
  | .dir es => allEntries path es
where
  allEntries (path : String) : List (String × FNode) → List String
  | [] => []
  | (n, c) :: rest => allFiles (path ++ "/" ++ n) c ++ allEntries path rest

/-- The non-recursive branch of `findImageFiles`: `os.ReadDir` on the root,
keeping non-directory entries whose raw extension (of the entry name) is in
`ValidExtensions`, joined onto the root path. -/
def listImageFiles (dirPath : String) (es : List (String × FNode)) : List String :=
  es.filterMap fun e =>
    match e.2 with
    | .file =>
      if ValidExtensions.contains (goExt e.1) then some (dirPath ++ "/" ++ e.1) else none
    | .dir _ => none

/-- `findImageFiles` from cmd/batch.go.  The root argument carries the tree
when the root directory is readable and `none` when reading it fails
(permission, not-exist); `os.ReadDir` on a non-directory also fails. -/
def findImageFiles (root : String) (rootNode : Option FNode) (recursive : Bool) :
    Except String (List String) :=
  match rootNode with
  | none => .error "IOError"
  | some t =>
    if recursive then .ok (walkFiles root t)
    else
      match t with
      | .dir es => .ok (listImageFiles root es)
      | .file => .error "IOError"

/-- `walkFiles` keeps exactly the files whose raw extension is supported. -/
theorem walkFiles_eq_filter : ∀ (path : String) (t : FNode),
    walkFiles path t =
      (allFiles path t).filter fun p => ValidExtensions.contains (goExt p)
  | path, .file => by
    by_cases h : goExt path ∈ ValidExtensions <;>
      simp [walkFiles, allFiles, h]
  | path, .dir es => by
    rw [walkFiles, allFiles]
    exact walkEntries_eq_filter path es
where
  walkEntries_eq_filter : ∀ (path : String) (es : List (String × FNode)),
      walkFiles.walkEntries path es =
        (allFiles.allEntries path es).filter fun p => ValidExtensions.contains (goExt p)
  | _, [] => rfl
  | path, (n, c) :: rest => by
    rw [walkFiles.walkEntries, allFiles.allEntries, List.filter_append,
      walkFiles_eq_filter (path ++ "/" ++ n) c, walkEntries_eq_filter path rest]

/-- C3 (amended): an unreadable root yields an error; recursive discovery
returns exactly the files of the whole tree whose raw (case-sensitive)
extension is in the supported set; non-recursive discovery returns exactly
the direct children that are files with a supported raw extension, in
enumeration order.  (The Go code does not lower-case the extension here, so
a file named with an upper-case variant of a supported extension is
skipped — see the counterexample.) -/
theorem findImageFiles_spec :
    (∀ root r, findImageFiles root none r = .error "IOError")
    ∧ (∀ root t, findImageFiles root (some t) true =
        .ok ((allFiles root t).filter fun p => ValidExtensions.contains (goExt p)))
    ∧ (∀ root es, findImageFiles root (some (.dir es)) false =
        .ok (listImageFiles root es))
    ∧ (∀ root es p, p ∈ listImageFiles root es ↔
        ∃ n, (n, FNode.file) ∈ es ∧ p = root ++ "/" ++ n ∧
          ValidExtensions.contains (goExt n) = true) := by
  refine ⟨fun root r => rfl, fun root t => ?_, fun root es => rfl, fun root es p => ?_⟩
  · rw [findImageFiles.eq_def]
    simp [walkFiles_eq_filter]
  · constructor
    · intro hp
      rcases List.mem_filterMap.mp hp with ⟨⟨n, c⟩, hmem, hkeep⟩
      cases c with
      | file =>
        simp only [listImageFiles] at hkeep
        simp at hkeep
        obtain ⟨hin, hpe⟩ := hkeep
        exact ⟨n, hmem, hpe.symm, by simpa using hin⟩
      | dir es2 => simp at hkeep
    · rintro ⟨n, hmem, rfl, hext⟩
      refine List.mem_filterMap.mpr ⟨(n, .file), hmem, ?_⟩
      have : goExt n ∈ ValidExtensions := by simpa using hext
      simp [this]

/-- C3 counterexample: a direct child named "a.PNG" — whose lower-cased
extension ".png" is in the supported set — is not returned by
`findImageFiles`, because the Go code looks up the raw extension ".PNG". -/
theorem findImageFiles_case_counterexample :
    findImageFiles "d" (some (.dir [("a.PNG", .file)])) false = .ok []
    ∧ asciiToLower (goExt "a.PNG") = ".png"
    ∧ ValidExtensions.contains ".png" = true := by
  refine ⟨?_, by decide, by decide⟩
  rfl

/-- Witness for C3 (amended), applying the specification at a concrete tree:
recursive discovery of a tree holding "b.jpg" in a subdirectory finds it. -/
theorem findImageFiles_spec_witness :
    findImageFiles "d" (some (.dir [("sub", .dir [("b.jpg", .file)])])) true =
      .ok (["d" ++ "/" ++ "sub" ++ "/" ++ "b.jpg"].filter
        fun p => ValidExtensions.contains (goExt p)) :=
  findImageFiles_spec.2.1 "d" (.dir [("sub", .dir [("b.jpg", .file)])])

/-! ## URL escaping (Go net/url.PathEscape) -/

/-- The UTF-8 encoding of one character as a byte list; Go escapes a string
byte-by-byte over its UTF-8 encoding. -/
def utf8Bytes (c : Char) : List Nat :=
  let n := c.toNat
  if n < 0x80 then [n]
  else if n < 0x800 then
    [0xC0 ||| (n >>> 6), 0x80 ||| (n &&& 0x3F)]
  else if n < 0x10000 then
    [0xE0 ||| (n >>> 12), 0x80 ||| ((n >>> 6) &&& 0x3F), 0x80 ||| (n &&& 0x3F)]
  else
    [0xF0 ||| (n >>> 18), 0x80 ||| ((n >>> 12) &&& 0x3F),
     0x80 ||| ((n >>> 6) &&& 0x3F), 0x80 ||| (n &&& 0x3F)]

/-- Go `url.shouldEscape` in path-segment mode: alphanumerics and
`- _ . ~` are never escaped; of the reserved characters
`$ & + , / : ; = ? @`, exactly `/ ; , ?` are escaped in a path segment;
every other byte is escaped.  In particular a space is escaped (as %20, not
as +: the + form is used only in query components). -/
def shouldEscapePathSegment (b : Nat) : Bool :=
  if (97 ≤ b ∧ b ≤ 122) ∨ (65 ≤ b ∧ b ≤ 90) ∨ (48 ≤ b ∧ b ≤ 57) then false
  else if b = 45 ∨ b = 95 ∨ b = 46 ∨ b = 126 then false
  else if b = 36 ∨ b = 38 ∨ b = 43 ∨ b = 44 ∨ b = 47 ∨ b = 58 ∨ b = 59 ∨
          b = 61 ∨ b = 63 ∨ b = 64 then
    b = 47 ∨ b = 59 ∨ b = 44 ∨ b = 63
  else true

/-- Upper-case hexadecimal digit, as used by Go percent-escaping. -/
def upperHexDigit (n : Nat) : Char :=
  if n < 10 then Char.ofNat (48 + n) else Char.ofNat (55 + n)

/-- A percent-escaped byte: '%' followed by two upper-case hex digits. -/
def escapeByte (b : Nat) : List Char := ['%', upperHexDigit (b / 16), upperHexDigit (b % 16)]

/-- Go `url.PathEscape`: escape each byte of the UTF-8 encoding that
`shouldEscapePathSegment` selects. -/
def pathEscape (s : String) : String :=
  String.mk (((s.data.map utf8Bytes).flatten).map
    (fun b => if shouldEscapePathSegment b then escapeByte b else [Char.ofNat b])).flatten

/-! ## Backend submission protocols -/

/-- The per-call upload errors, one constructor per `fmt.Errorf` site of the
two backends (pkg/client/filepicker.go and pkg/client/graphql.go). -/
inductive UploadError where
  /-- `ValidateFile` failed. -/
  | validation (e : ValidationError)
  /-- Backend A: `getRequestToken` failed (transport, non-2xx status, or no
  token marker in the returned markup). -/
  | tokenFailed (msg : String)
  /-- The HTTP round trip itself failed. -/
  | transport (msg : String)
  /-- HTTP status 401 or 403: the session has expired. -/
  | authExpired (status : Nat)
  /-- Any other non-2xx HTTP status, carrying the status and the body text. -/
  | rejectedStatus (status : Nat) (body : String)
  /-- The 2xx response body did not decode as JSON. -/
  | parseFailed (body : String)
  /-- Backend A: the decoded response has an empty fileNameInserted; the
  error carries the backend message (mensagem). -/
  | rejectedMessage (mensagem : String)
  /-- Backend B: the decoded response carries GraphQL errors; the first
  message is surfaced. -/
  | graphqlErrors (msg : String)
  /-- Backend B: the decoded response has no fileUrl. -/
  | noFileUrl
deriving DecidableEq, Repr

/-- The outcome of one HTTP exchange: a transport failure, or a response
carrying the numeric status code, the raw body text, and the result of
JSON-decoding the body into the protocol type `α` (`none` when decoding
fails). -/
inductive HttpOutcome (α : Type) where
  | transportErr (msg : String)
  | resp (status : Nat) (body : String) (parsed : Option α)

/-- The decoded Backend A (CMS FilePicker) upload response. -/
structure FilePickerResponse where
  fileNameInserted : String
  mensagem : String
deriving DecidableEq, Repr

/-- The decoded Backend B (GraphQL) upload response: the fileUrl of
data.uploadFile and the list of GraphQL error messages. -/
structure GraphQLResponse where
  fileUrl : String
  errors : List String
deriving DecidableEq, Repr

/-- `uploadFilePicker` from pkg/client/filepicker.go: statuses outside
[200,300) map to auth-expired (401/403) or upload-rejected with status and
body; a 2xx body that fails to decode is a parse error; an empty
fileNameInserted is a rejection carrying mensagem; otherwise the returned
URL is the account's vtexassets arquivos URL with the inserted file name
path-escaped. -/
def uploadFilePicker (account : String) (o : HttpOutcome FilePickerResponse) :
    Except UploadError String :=
  match o with
  | .transportErr m => .error (.transport m)
  | .resp status body parsed =>
    if status < 200 ∨ 300 ≤ status then
      if status = 401 ∨ status = 403 then .error (.authExpired status)
      else .error (.rejectedStatus status body)
    else
      match parsed with
      | none => .error (.parseFailed body)
      | some r =>
        if r.fileNameInserted = "" then .error (.rejectedMessage r.mensagem)
        else .ok ("https://" ++ account ++ ".vtexassets.com/arquivos/" ++
            pathEscape r.fileNameInserted)

/-- `uploadGraphQL` from pkg/client/graphql.go: the same status mapping as
Backend A; then a decode failure is a parse error, a non-empty errors list
surfaces its first message, an empty fileUrl is an error, and otherwise the
remote-generated fileUrl is returned as-is. -/
def uploadGraphQL (o : HttpOutcome GraphQLResponse) : Except UploadError String :=
  match o with
  | .transportErr m => .error (.transport m)
  | .resp status body parsed =>
    if status < 200 ∨ 300 ≤ status then
      if status = 401 ∨ status = 403 then .error (.authExpired status)
      else .error (.rejectedStatus status body)
    else
      match parsed with
      | none => .error (.parseFailed body)
      | some r =>
        match r.errors with
        | m :: _ => .error (.graphqlErrors m)
        | [] => if r.fileUrl = "" then .error .noFileUrl else .ok r.fileUrl

/-- C7: for both backends, a response status of 401 or 403 maps to the
authentication-expired error, and every other status outside [200,300) maps
to the upload-rejected error carrying the numeric status and the response
body text. -/
theorem http_status_mapping :
    (∀ account status body (parsed : Option FilePickerResponse),
      status < 200 ∨ 300 ≤ status →
        ((status = 401 ∨ status = 403 →
          uploadFilePicker account (.resp status body parsed) =
            .error (.authExpired status)) ∧
        (status ≠ 401 → status ≠ 403 →
          uploadFilePicker account (.resp status body parsed) =
            .error (.rejectedStatus status body))))
    ∧ (∀ status body (parsed : Option GraphQLResponse),
      status < 200 ∨ 300 ≤ status →
        ((status = 401 ∨ status = 403 →
          uploadGraphQL (.resp status body parsed) = .error (.authExpired status)) ∧
        (status ≠ 401 → status ≠ 403 →
          uploadGraphQL (.resp status body parsed) =
            .error (.rejectedStatus status body)))) := by
  constructor
  · intro account status body parsed hout
    constructor
    · intro hauth
      rw [uploadFilePicker.eq_def]
      dsimp only
      rw [if_pos hout, if_pos hauth]
    · intro h1 h3
      rw [uploadFilePicker.eq_def]
      dsimp only
      rw [if_pos hout, if_neg (by rintro (h | h) <;> simp_all)]
  · intro status body parsed hout
    constructor
    · intro hauth
      rw [uploadGraphQL.eq_def]
      dsimp only
      rw [if_pos hout, if_pos hauth]
    · intro h1 h3
      rw [uploadGraphQL.eq_def]
      dsimp only
      rw [if_pos hout, if_neg (by rintro (h | h) <;> simp_all)]

/-- Witness for C7: status 403 yields auth-expired and status 404 yields
upload-rejected with status and body, on both backends. -/
theorem http_status_mapping_witness :
    uploadFilePicker "acme" (.resp 403 "forbidden" none) = .error (.authExpired 403)
    ∧ uploadFilePicker "acme" (.resp 404 "nope" none) =
        .error (.rejectedStatus 404 "nope")
    ∧ uploadGraphQL (.resp 403 "forbidden" none) = .error (.authExpired 403)
    ∧ uploadGraphQL (.resp 404 "nope" none) = .error (.rejectedStatus 404 "nope") :=
  ⟨(http_status_mapping.1 "acme" 403 "forbidden" none (by decide)).1 (by decide),
   (http_status_mapping.1 "acme" 404 "nope" none (by decide)).2 (by decide) (by decide),
   (http_status_mapping.2 403 "forbidden" none (by decide)).1 (by decide),
   (http_status_mapping.2 404 "nope" none (by decide)).2 (by decide) (by decide)⟩

/-- Shape of every successful Backend A submission: the outcome was a 2xx
response that decoded, with a non-empty inserted file name, and the URL is
the arquivos URL built from the path-escaped inserted name. -/
theorem uploadFilePicker_ok_shape (account : String)
    (o : HttpOutcome FilePickerResponse) (url : String)
    (h : uploadFilePicker account o = .ok url) :
    ∃ status body r, o = .resp status body (some r) ∧
      url = "https://" ++ account ++ ".vtexassets.com/arquivos/" ++
        pathEscape r.fileNameInserted := by
  match o with
  | .transportErr m => exact absurd h (by simp [uploadFilePicker])
  | .resp status body parsed =>
    rw [uploadFilePicker.eq_def] at h
    dsimp only at h
    by_cases hst : status < 200 ∨ 300 ≤ status
    · rw [if_pos hst] at h
      by_cases hauth : status = 401 ∨ status = 403
      · rw [if_pos hauth] at h; exact absurd h (by simp)
      · rw [if_neg hauth] at h; exact absurd h (by simp)
    · rw [if_neg hst] at h
      match parsed with
      | none => exact absurd h (by simp)
      | some r =>
        dsimp only at h
        by_cases hname : r.fileNameInserted = ""
        · rw [if_pos hname] at h; exact absurd h (by simp)
        · rw [if_neg hname] at h
          exact ⟨status, body, r, rfl, (Except.ok.injEq _ _ ▸ h).symm⟩

/-- C6: every successful Backend A upload returns the account's
vtexassets arquivos URL with the path-escaped inserted file name; a space
is percent-encoded as %20 (not raw, not +), and "logo.png" is reproduced
without any re-encoding. -/
theorem cms_success_url :
    (∀ account o url, uploadFilePicker account o = .ok url →
      ∃ status body r, o = .resp status body (some r) ∧
        url = "https://" ++ account ++ ".vtexassets.com/arquivos/" ++
          pathEscape r.fileNameInserted)
    ∧ pathEscape "my file.jpg" = "my%20file.jpg"
    ∧ pathEscape "logo.png" = "logo.png" :=
  ⟨uploadFilePicker_ok_shape, by decide, by decide⟩

/-- Witness for C6: a successful response inserting "my file.jpg" yields
the URL with the space percent-encoded. -/
theorem cms_success_url_witness :
    ∃ status body r,
      (HttpOutcome.resp 200 "ok" (some ⟨"my file.jpg", ""⟩) :
        HttpOutcome FilePickerResponse) = .resp status body (some r) ∧
      "https://acme.vtexassets.com/arquivos/my%20file.jpg" =
        "https://" ++ "acme" ++ ".vtexassets.com/arquivos/" ++
          pathEscape r.fileNameInserted :=
  cms_success_url.1 "acme" (.resp 200 "ok" (some ⟨"my file.jpg", ""⟩))
    "https://acme.vtexassets.com/arquivos/my%20file.jpg" rfl

/-! ## Audit log (pkg/logger/upload_logger.go)

The log file is newline-delimited JSON.  A line is modelled either as a
JSON value (the decoding that `encoding/json` would produce for it) or as
garbage that fails to decode as JSON at all.  JSON values are restricted to
the shapes `encoding/json` ever produces for `UploadLogEntry` (strings,
integers, objects); a line of any other JSON shape at top level fails to
decode into the struct exactly like a non-object does in Go.  `time.Time`
values are modelled by their RFC3339 string form, which is exactly what
`encoding/json` writes and reads for them; the zero time is modelled as the
empty string. -/

/-- A JSON value (the fragment `encoding/json` produces for the log entry
struct: strings, int64 numbers, and objects with ordered fields). -/
inductive Json where
  | str (s : String)
  | num (n : Int)
  | obj (fields : List (String × Json))

/-- `UploadLogEntry` from pkg/logger: timestamps carried in their RFC3339
JSON string form. -/
structure UploadLogEntry where
  timestamp : String
  file : String
  path : String
  size : Int
  method : String
  account : String
  workspace : String
  status : String
  url : String
  error : String
deriving DecidableEq, Repr

/-- The zero value of `UploadLogEntry`, the starting point of
`json.Unmarshal` into a fresh struct. -/
def emptyEntry : UploadLogEntry :=
  ⟨"", "", "", 0, "", "", "", "", "", ""⟩

/-- `json.Marshal` of an `UploadLogEntry`: fields in struct order, with the
`omitempty` tags of Path, URL and Error dropping empty strings. -/
def marshalEntry (e : UploadLogEntry) : Json :=
  .obj ([("timestamp", .str e.timestamp), ("file", .str e.file)]
    ++ (if e.path = "" then [] else [("path", .str e.path)])
    ++ [("size", .num e.size), ("method", .str e.method),
        ("account", .str e.account), ("workspace", .str e.workspace),
        ("status", .str e.status)]
    ++ (if e.url = "" then [] else [("url", .str e.url)])
    ++ (if e.error = "" then [] else [("error", .str e.error)]))

/-- One key/value pair of `json.Unmarshal` into the struct: a known key of
the wrong JSON shape is an error (`none`); unknown keys are ignored; later
duplicate keys overwrite earlier ones (Go decodes keys in order). -/
def setEntryField (e : UploadLogEntry) (k : String) (v : Json) :
    Option UploadLogEntry :=
  if k = "timestamp" then
    match v with | .str s => some { e with timestamp := s } | _ => none
  else if k = "file" then
    match v with | .str s => some { e with file := s } | _ => none
  else if k = "path" then
    match v with | .str s => some { e with path := s } | _ => none
  else if k = "size" then
    match v with | .num n => some { e with size := n } | _ => none
  else if k = "method" then
    match v with | .str s => some { e with method := s } | _ => none
  else if k = "account" then
    match v with | .str s => some { e with account := s } | _ => none
  else if k = "workspace" then
    match v with | .str s => some { e with workspace := s } | _ => none
  else if k = "status" then
    match v with | .str s => some { e with status := s } | _ => none
  else if k = "url" then
    match v with | .str s => some { e with url := s } | _ => none
  else if k = "error" then
    match v with | .str s => some { e with error := s } | _ => none
  else some e

/-- `json.Unmarshal` of one line into `UploadLogEntry`: the line must be a
JSON object; its keys are folded over the zero struct. -/
def unmarshalEntry : Json → Option UploadLogEntry
  | .obj fields => fields.foldlM (fun e kv => setEntryField e kv.1 kv.2) emptyEntry
  | _ => none

/-- One line of the log file: a JSON value, or text that is not JSON. -/
inductive LogLine where
  | jline (j : Json)
  | garbage (s : String)

/-- What one log line decodes to, if anything. -/
def decodeLine : LogLine → Option UploadLogEntry
  | .jline j => unmarshalEntry j
  | .garbage _ => none

/-- The log file: `none` when the file does not exist. -/
def LogFile := Option (List LogLine)

/-- The timestamp fill-in of `LogUpload`: a zero timestamp is replaced by
the current time before serialization. -/
def fillTimestamp (now : String) (e : UploadLogEntry) : UploadLogEntry :=
  if e.timestamp = "" then { e with timestamp := now } else e

/-- `LogUpload` from pkg/logger: create the file if absent, fill a zero
timestamp, marshal the entry and append it as one line; the write error, if
any, is returned to the caller (and on failure nothing is appended). -/
def LogUpload (now : String) (writeFails : Bool) (f : LogFile) (e : UploadLogEntry) :
    LogFile × Option String :=
  let e2 := fillTimestamp now e
  if writeFails then (f, some "write error")
  else (some ((f.getD []) ++ [.jline (marshalEntry e2)]), none)

/-- `ReadLogs` from pkg/logger: a missing file yields the empty list; every
line that decodes as a well-formed entry is kept, in file order; lines that
fail to decode are skipped. -/
def ReadLogs : LogFile → List UploadLogEntry
  | none => []
  | some lines => lines.filterMap decodeLine

/-- Round trip of the JSON encoding: unmarshalling a marshalled entry
recovers the entry, field for field (JSON key order is immaterial: the
decoder folds whatever keys are present). -/
theorem unmarshal_marshal (e : UploadLogEntry) :
    unmarshalEntry (marshalEntry e) = some e := by
  obtain ⟨ts, fi, pa, sz, me, ac, ws, st, ur, er⟩ := e
  simp only [marshalEntry, unmarshalEntry]
  by_cases hp : pa = ""
  all_goals by_cases hu : ur = ""
  all_goals by_cases he : er = ""
  all_goals simp only [hp, hu, he, eq_self_iff_true, if_true, if_false,
    ite_true, ite_false]
  all_goals rfl

/-- C9: appending an entry with `LogUpload` and reading the log back with
`ReadLogs` yields exactly the previous entries followed by one entry that
is field-equal to the entry written (the written entry is the input with a
zero timestamp replaced by the append time; an entry that already carries a
timestamp is written unchanged). -/
theorem log_roundtrip (now : String) (f : LogFile) (e : UploadLogEntry) :
    ReadLogs (LogUpload now false f e).1 = ReadLogs f ++ [fillTimestamp now e]
    ∧ (e.timestamp ≠ "" → fillTimestamp now e = e) := by
  constructor
  · show ReadLogs (some ((f.getD []) ++ [.jline (marshalEntry (fillTimestamp now e))])) = _
    match f with
    | none =>
      simp [ReadLogs, decodeLine, unmarshal_marshal]
    | some lines =>
      simp [ReadLogs, List.filterMap_append, decodeLine, unmarshal_marshal]
  · intro h
    simp [fillTimestamp, h]

/-- Witness for C9 at a concrete entry: appending a success entry for
"logo.png" to an empty log and reading back returns exactly that entry. -/
theorem log_roundtrip_witness :
    ReadLogs (LogUpload "t1" false (some [])
        ⟨"t0", "logo.png", "/tmp/logo.png", 10, "cms", "acme", "master",
          "success", "https://acme.vtexassets.com/arquivos/logo.png", ""⟩).1 =
      ReadLogs (some []) ++
        [fillTimestamp "t1"
          ⟨"t0", "logo.png", "/tmp/logo.png", 10, "cms", "acme", "master",
            "success", "https://acme.vtexassets.com/arquivos/logo.png", ""⟩] :=
  (log_roundtrip "t1" (some [])
    ⟨"t0", "logo.png", "/tmp/logo.png", 10, "cms", "acme", "master",
      "success", "https://acme.vtexassets.com/arquivos/logo.png", ""⟩).1

/-- C8: `ReadLogs` yields the empty list when no log file exists; reading
splits over concatenation (entries come back in file order); a line that
fails to decode is skipped without affecting the rest; a well-formed line
contributes exactly its entry; and the concrete corruption scenario — one
malformed line between two well-formed lines — yields exactly the two
well-formed entries. -/
theorem readLogs_spec :
    ReadLogs none = []
    ∧ (∀ a b, ReadLogs (some (a ++ b)) = ReadLogs (some a) ++ ReadLogs (some b))
    ∧ (∀ a b l, decodeLine l = none →
        ReadLogs (some (a ++ l :: b)) = ReadLogs (some (a ++ b)))
    ∧ (∀ j e, unmarshalEntry j = some e → ReadLogs (some [.jline j]) = [e])
    ∧ (∀ s e₁ e₂, ReadLogs (some [.jline (marshalEntry e₁), .garbage s,
        .jline (marshalEntry e₂)]) = [e₁, e₂]) := by
  refine ⟨rfl, ?_, ?_, ?_, ?_⟩
  · intro a b
    simp [ReadLogs, List.filterMap_append]
  · intro a b l hl
    simp [ReadLogs, List.filterMap_append, hl]
  · intro j e hj
    simp [ReadLogs, decodeLine, hj]
  · intro s e₁ e₂
    simp [ReadLogs, decodeLine, unmarshal_marshal]

/-- Witness for C8: a log file holding a well-formed line, a garbage line
and another well-formed line reads back as exactly the two entries. -/
theorem readLogs_spec_witness :
    ReadLogs (some [.jline (marshalEntry emptyEntry), .garbage "not json",
        .jline (marshalEntry { emptyEntry with file := "a.png" })]) =
      [emptyEntry, { emptyEntry with file := "a.png" }] :=
  readLogs_spec.2.2.2.2 "not json" emptyEntry { emptyEntry with file := "a.png" }

/-! ## The two backend upload operations (CMSFilePickerClient.UploadFile,
GraphQLClient.UploadFile)

Each is modelled as a function of the client configuration, the per-call
oracles (the token-fetch outcome for Backend A, the HTTP exchange outcome,
the wall clock used for the audit timestamp), the filesystem, a flag making
the audit-log append fail, the current log file, and the file path.  It
returns the UploadResult, the error returned alongside it (the Go functions
return the pair `(*UploadResult, error)`; the Go result pointer is non-nil
on every path, so the model returns the struct itself), and the log file
after the call.  The Go open/stat/copy steps between validation and
submission cannot fail in the model because validation has already
established the file exists in the (immutable) modelled filesystem. -/

/-- `UploadResult` from pkg/client. -/
structure UploadResult where
  fileName : String
  fileURL : String
  success : Bool
  error : Option UploadError
deriving DecidableEq, Repr

/-- The error text of a validation error, as produced by the `fmt.Errorf`
calls of `ValidateFile`. -/
def validationErrText : ValidationError → String
  | .notFound p => "file does not exist: " ++ p
  | .isDirectory p => "path is a directory, not a file: " ++ p
  | .tooLarge sz =>
    "file size (" ++ toString sz ++
      " bytes) exceeds maximum allowed size (5242880 bytes / 5MB)"
  | .emptyFile p => "file is empty: " ++ p
  | .unsupportedType e =>
    "unsupported file type: " ++ e ++
      " (images: jpg, jpeg, png, gif, svg, webp, bmp; docs: pdf, txt, json, xml; web: css, js)"

/-- The error text of an upload error (what `err.Error()` yields when the
entry is logged), following the Go `fmt.Errorf` formats. -/
def errText : UploadError → String
  | .validation e => validationErrText e
  | .tokenFailed m => "failed to get requestToken: " ++ m
  | .transport m => "request failed: " ++ m
  | .authExpired st =>
    "authentication failed (HTTP " ++ toString st ++
      "): your VTEX session has expired. Please run \x27vtex login\x27 and try again"
  | .rejectedStatus st body => "upload failed with status " ++ toString st ++ ": " ++ body
  | .parseFailed body => "failed to parse response (body: " ++ body ++ ")"
  | .rejectedMessage m => "upload failed: " ++ m
  | .graphqlErrors m => "GraphQL error: " ++ m
  | .noFileUrl => "no fileUrl in response"

/-- The size `file.Stat()` reports for an already-validated path. -/
def fsSize (fs : FS) (p : String) : Int :=
  match statFS fs p with
  | some (.file n) => (n : Int)
  | _ => 0

/-- The CMS FilePicker client configuration (account and workspace from the
session). -/
structure CMSClient where
  account : String
  workspace : String

/-- The per-call oracles of `CMSFilePickerClient.UploadFile`: the outcome
of `getRequestToken` (error message, or the fresh token it stores), the
outcome of the upload POST, and the wall-clock time stamped onto the audit
entry. -/
structure CMSCallOracle where
  token : Except String String
  http : HttpOutcome FilePickerResponse
  now : String

/-- `CMSFilePickerClient.UploadFile` from pkg/client/filepicker.go:
validate; fetch a fresh request token (never cached: the oracle is per
call); build the multipart form; submit through `uploadFilePicker`; log one
audit entry for the submission outcome (its write error is discarded);
return the result.  Failures before the submission return without logging. -/
def uploadFileCMS (c : CMSClient) (orc : CMSCallOracle) (fs : FS)
    (writeFails : Bool) (f : LogFile) (filePath : String) :
    UploadResult × Option UploadError × LogFile :=
  let fileName := goBase filePath
  let r0 : UploadResult := ⟨fileName, "", false, none⟩
  match ValidateFile fs filePath with
  | .error e => ({ r0 with error := some (.validation e) }, some (.validation e), f)
  | .ok () =>
    match orc.token with
    | .error m => ({ r0 with error := some (.tokenFailed m) }, some (.tokenFailed m), f)
    | .ok _tok =>
      let size := fsSize fs filePath
      match uploadFilePicker c.account orc.http with
      | .error e =>
        let entry : UploadLogEntry :=
          ⟨orc.now, fileName, filePath, size, "cms", c.account, c.workspace,
            "failed", "", errText e⟩
        ({ r0 with error := some e }, some e, (LogUpload orc.now writeFails f entry).1)
      | .ok url =>
        let entry : UploadLogEntry :=
          ⟨orc.now, fileName, filePath, size, "cms", c.account, c.workspace,
            "success", url, ""⟩
        ({ r0 with fileURL := url, success := true }, none,
          (LogUpload orc.now writeFails f entry).1)

/-- The GraphQL client configuration. -/
structure GQLClient where
  account : String
  workspace : String

/-- The per-call oracles of `GraphQLClient.UploadFile`. -/
structure GQLCallOracle where
  http : HttpOutcome GraphQLResponse
  now : String

/-- `GraphQLClient.UploadFile` from pkg/client/graphql.go: validate; build
the three-part multipart body (operations, map, file); submit through
`uploadGraphQL`; log one audit entry for the submission outcome (its write
error is discarded); return the result. -/
def uploadFileGQL (c : GQLClient) (orc : GQLCallOracle) (fs : FS)
    (writeFails : Bool) (f : LogFile) (filePath : String) :
    UploadResult × Option UploadError × LogFile :=
  let fileName := goBase filePath
  let r0 : UploadResult := ⟨fileName, "", false, none⟩
  match ValidateFile fs filePath with
  | .error e => ({ r0 with error := some (.validation e) }, some (.validation e), f)
  | .ok () =>
    let size := fsSize fs filePath
    match uploadGraphQL orc.http with
    | .error e =>
      let entry : UploadLogEntry :=
        ⟨orc.now, fileName, filePath, size, "graphql", c.account, c.workspace,
          "failed", "", errText e⟩
      ({ r0 with error := some e }, some e, (LogUpload orc.now writeFails f entry).1)
    | .ok url =>
      let entry : UploadLogEntry :=
        ⟨orc.now, fileName, filePath, size, "graphql", c.account, c.workspace,
          "success", url, ""⟩
      ({ r0 with fileURL := url, success := true }, none,
        (LogUpload orc.now writeFails f entry).1)

/-- A successful Backend A submission never returns an empty URL (it starts
with the literal scheme and host). -/
theorem uploadFilePicker_ok_ne_empty (account : String)
    (o : HttpOutcome FilePickerResponse) (url : String)
    (h : uploadFilePicker account o = .ok url) : url ≠ "" := by
  obtain ⟨status, body, r, -, rfl⟩ := uploadFilePicker_ok_shape account o url h
  intro hcontr
  have := congrArg String.length hcontr
  simp [String.length_append] at this
  exact absurd this.1.1.1 (by decide)

/-- A successful Backend B submission never returns an empty URL (the Go
code checks `fileUrl == ""` before succeeding). -/
theorem uploadGraphQL_ok_ne_empty (o : HttpOutcome GraphQLResponse)
    (url : String) (h : uploadGraphQL o = .ok url) : url ≠ "" := by
  match o with
  | .transportErr m => exact absurd h (by simp [uploadGraphQL])
  | .resp status body parsed =>
    rw [uploadGraphQL.eq_def] at h
    dsimp only at h
    by_cases hst : status < 200 ∨ 300 ≤ status
    · rw [if_pos hst] at h
      by_cases hauth : status = 401 ∨ status = 403
      · rw [if_pos hauth] at h; exact absurd h (by simp)
      · rw [if_neg hauth] at h; exact absurd h (by simp)
    · rw [if_neg hst] at h
      match parsed with
      | none => exact absurd h (by simp)
      | some r =>
        dsimp only at h
        match hr : r.errors with
        | m :: _ => rw [hr] at h; exact absurd h (by simp)
        | [] =>
          rw [hr] at h
          by_cases hurl : r.fileUrl = ""
          · rw [if_pos hurl] at h; exact absurd h (by simp)
          · rw [if_neg hurl] at h
            cases h
            exact hurl

/-- C10: on both backends the returned result carries the base name of the
input path as its file name; the returned error is `none` exactly when the
success flag is set; the result's own error field equals the returned
error; success implies a non-empty URL and a `none` error field; failure
implies an unset success flag and a set error field.  (The Go functions
return a freshly allocated result on every path, so the result is never
nil.) -/
theorem upload_result_invariants (c : CMSClient) (orc : CMSCallOracle)
    (g : GQLClient) (gorc : GQLCallOracle) (fs : FS) (wf : Bool)
    (f : LogFile) (p : String) :
    ((uploadFileCMS c orc fs wf f p).1.fileName = goBase p
      ∧ ((uploadFileCMS c orc fs wf f p).2.1 = none ↔
          (uploadFileCMS c orc fs wf f p).1.success = true)
      ∧ (uploadFileCMS c orc fs wf f p).1.error = (uploadFileCMS c orc fs wf f p).2.1
      ∧ ((uploadFileCMS c orc fs wf f p).1.success = true →
          (uploadFileCMS c orc fs wf f p).1.fileURL ≠ ""
            ∧ (uploadFileCMS c orc fs wf f p).1.error = none)
      ∧ ((uploadFileCMS c orc fs wf f p).2.1 ≠ none →
          (uploadFileCMS c orc fs wf f p).1.success = false
            ∧ (uploadFileCMS c orc fs wf f p).1.error ≠ none))
    ∧ ((uploadFileGQL g gorc fs wf f p).1.fileName = goBase p
      ∧ ((uploadFileGQL g gorc fs wf f p).2.1 = none ↔
          (uploadFileGQL g gorc fs wf f p).1.success = true)
      ∧ (uploadFileGQL g gorc fs wf f p).1.error = (uploadFileGQL g gorc fs wf f p).2.1
      ∧ ((uploadFileGQL g gorc fs wf f p).1.success = true →
          (uploadFileGQL g gorc fs wf f p).1.fileURL ≠ ""
            ∧ (uploadFileGQL g gorc fs wf f p).1.error = none)
      ∧ ((uploadFileGQL g gorc fs wf f p).2.1 ≠ none →
          (uploadFileGQL g gorc fs wf f p).1.success = false
            ∧ (uploadFileGQL g gorc fs wf f p).1.error ≠ none)) := by
  constructor
  · cases hv : ValidateFile fs p with
    | error e => simp [uploadFileCMS, hv]
    | ok u =>
      cases u
      cases ht : orc.token with
      | error m => simp [uploadFileCMS, hv, ht]
      | ok tok =>
        cases hu : uploadFilePicker c.account orc.http with
        | error e => simp [uploadFileCMS, hv, ht, hu]
        | ok url =>
          simp [uploadFileCMS, hv, ht, hu]
          exact uploadFilePicker_ok_ne_empty c.account orc.http url hu
  · cases hv : ValidateFile fs p with
    | error e => simp [uploadFileGQL, hv]
    | ok u =>
      cases u
      cases hu : uploadGraphQL gorc.http with
      | error e => simp [uploadFileGQL, hv, hu]
      | ok url =>
        simp [uploadFileGQL, hv, hu]
        exact uploadGraphQL_ok_ne_empty gorc.http url hu

/-- Witness for C10 at concrete inputs: a validation failure (missing file)
on Backend A yields an unsuccessful result whose error is set. -/
theorem upload_result_invariants_witness :
    (uploadFileCMS ⟨"acme", "master"⟩ ⟨.ok "tok", .resp 200 "" none, "t0"⟩
        [] false (some []) "x.png").1.success = false
    ∧ (uploadFileCMS ⟨"acme", "master"⟩ ⟨.ok "tok", .resp 200 "" none, "t0"⟩
        [] false (some []) "x.png").1.error ≠ none :=
  (upload_result_invariants ⟨"acme", "master"⟩ ⟨.ok "tok", .resp 200 "" none, "t0"⟩
      ⟨"acme", "master"⟩ ⟨.resp 200 "" none, "t0"⟩ [] false (some []) "x.png").1.2.2.2.2
    (by decide)

/-- C5: the result and the returned error of both backends are independent
of whether the audit-log append succeeds or fails — the outcome is computed
before the log write is attempted, and the log write's error is discarded,
so a log failure can never turn a successful upload into a failed one. -/
theorem upload_log_best_effort (c : CMSClient) (orc : CMSCallOracle)
    (g : GQLClient) (gorc : GQLCallOracle) (fs : FS) (f : LogFile)
    (p : String) (wf₁ wf₂ : Bool) :
    ((uploadFileCMS c orc fs wf₁ f p).1 = (uploadFileCMS c orc fs wf₂ f p).1
      ∧ (uploadFileCMS c orc fs wf₁ f p).2.1 = (uploadFileCMS c orc fs wf₂ f p).2.1)
    ∧ ((uploadFileGQL g gorc fs wf₁ f p).1 = (uploadFileGQL g gorc fs wf₂ f p).1
      ∧ (uploadFileGQL g gorc fs wf₁ f p).2.1 =
          (uploadFileGQL g gorc fs wf₂ f p).2.1) := by
  constructor
  · cases hv : ValidateFile fs p with
    | error e => simp [uploadFileCMS, hv]
    | ok u =>
      cases u
      cases ht : orc.token with
      | error m => simp [uploadFileCMS, hv, ht]
      | ok tok =>
        cases hu : uploadFilePicker c.account orc.http with
        | error e => simp [uploadFileCMS, hv, ht, hu]
        | ok url => simp [uploadFileCMS, hv, ht, hu]
  · cases hv : ValidateFile fs p with
    | error e => simp [uploadFileGQL, hv]
    | ok u =>
      cases u
      cases hu : uploadGraphQL gorc.http with
      | error e => simp [uploadFileGQL, hv, hu]
      | ok url => simp [uploadFileGQL, hv, hu]

/-- Witness for C5 at concrete inputs: with a successful submission, the
result is the same whether the log write fails or succeeds. -/
theorem upload_log_best_effort_witness :
    (uploadFileCMS ⟨"acme", "master"⟩
        ⟨.ok "tok", .resp 200 "" (some ⟨"logo.png", ""⟩), "t0"⟩
        [("logo.png", .file 10)] true (some []) "logo.png").1 =
      (uploadFileCMS ⟨"acme", "master"⟩
        ⟨.ok "tok", .resp 200 "" (some ⟨"logo.png", ""⟩), "t0"⟩
        [("logo.png", .file 10)] false (some []) "logo.png").1 :=
  (upload_log_best_effort ⟨"acme", "master"⟩
      ⟨.ok "tok", .resp 200 "" (some ⟨"logo.png", ""⟩), "t0"⟩
      ⟨"acme", "master"⟩ ⟨.resp 200 "" none, "t0"⟩
      [("logo.png", .file 10)] (some []) "logo.png" true false).1.1

/-- `fillTimestamp` leaves an entry unchanged when its timestamp already
equals the fill-in time. -/
theorem fillTimestamp_of_eq (now : String) (e : UploadLogEntry)
    (h : e.timestamp = now) : fillTimestamp now e = e := by
  obtain ⟨ts, fi, pa, sz, me, ac, ws, st, ur, er⟩ := e
  subst h
  unfold fillTimestamp
  split <;> rfl

/-- C4 (amended): Backend A's upload records exactly one audit entry, with
the status matching the submission outcome, whenever it reaches the upload
submission; a call that fails before the submission — validation failure or
token-fetch failure — returns without recording any entry. -/
theorem uploadFileCMS_logging (c : CMSClient) (orc : CMSCallOracle) (fs : FS)
    (f : LogFile) (p : String) :
    ((∃ e, ValidateFile fs p = .error e) →
      (uploadFileCMS c orc fs false f p).2.2 = f)
    ∧ (∀ m, ValidateFile fs p = .ok () → orc.token = .error m →
        (uploadFileCMS c orc fs false f p).2.2 = f)
    ∧ (∀ tok, ValidateFile fs p = .ok () → orc.token = .ok tok →
        ∃ entry, (uploadFileCMS c orc fs false f p).2.2 =
            some ((f.getD []) ++ [.jline (marshalEntry entry)])
          ∧ entry.status =
              (if (uploadFileCMS c orc fs false f p).1.success then "success"
               else "failed")
          ∧ entry.timestamp = orc.now ∧ entry.file = goBase p ∧ entry.path = p
          ∧ entry.method = "cms" ∧ entry.account = c.account
          ∧ entry.workspace = c.workspace) := by
  refine ⟨?_, ?_, ?_⟩
  · rintro ⟨e, hv⟩
    simp [uploadFileCMS, hv]
  · intro m hv ht
    simp [uploadFileCMS, hv, ht]
  · intro tok hv ht
    cases hu : uploadFilePicker c.account orc.http with
    | error e =>
      refine ⟨⟨orc.now, goBase p, p, fsSize fs p, "cms", c.account, c.workspace,
        "failed", "", errText e⟩, ?_, by simp [uploadFileCMS, hv, ht, hu], rfl,
        rfl, rfl, rfl, rfl, rfl⟩
      simp [uploadFileCMS, hv, ht, hu, LogUpload, fillTimestamp_of_eq]
    | ok url =>
      refine ⟨⟨orc.now, goBase p, p, fsSize fs p, "cms", c.account, c.workspace,
        "success", url, ""⟩, ?_, by simp [uploadFileCMS, hv, ht, hu], rfl,
        rfl, rfl, rfl, rfl, rfl⟩
      simp [uploadFileCMS, hv, ht, hu, LogUpload, fillTimestamp_of_eq]

/-- Witness for C4 (amended): a concrete successful call appends exactly
one entry. -/
theorem uploadFileCMS_logging_witness :
    ∃ entry,
      (uploadFileCMS ⟨"acme", "master"⟩
          ⟨.ok "tok", .resp 200 "" (some ⟨"logo.png", ""⟩), "t0"⟩
          [("logo.png", .file 10)] false (some []) "logo.png").2.2 =
        some (((some [] : LogFile).getD []) ++ [.jline (marshalEntry entry)])
      ∧ entry.status =
          (if (uploadFileCMS ⟨"acme", "master"⟩
              ⟨.ok "tok", .resp 200 "" (some ⟨"logo.png", ""⟩), "t0"⟩
              [("logo.png", .file 10)] false (some []) "logo.png").1.success
           then "success" else "failed")
      ∧ entry.timestamp = "t0" ∧ entry.file = goBase "logo.png"
      ∧ entry.path = "logo.png" ∧ entry.method = "cms"
      ∧ entry.account = "acme" ∧ entry.workspace = "master" :=
  (uploadFileCMS_logging ⟨"acme", "master"⟩
      ⟨.ok "tok", .resp 200 "" (some ⟨"logo.png", ""⟩), "t0"⟩
      [("logo.png", .file 10)] (some []) "logo.png").2.2 "tok" rfl rfl

/-- C4 counterexample: a Backend A call that fails validation (the file
does not exist) returns a failure yet records no audit entry, so not every
call records an entry. -/
theorem cms_log_counterexample :
    (uploadFileCMS ⟨"acme", "master"⟩
        ⟨.ok "tok", .resp 200 "" (some ⟨"x.png", ""⟩), "t0"⟩
        [] false (some []) "x.png").2.1 ≠ none
    ∧ (uploadFileCMS ⟨"acme", "master"⟩
        ⟨.ok "tok", .resp 200 "" (some ⟨"x.png", ""⟩), "t0"⟩
        [] false (some []) "x.png").2.2 = some [] := by
  exact ⟨by decide, rfl⟩

/-! ## Scheduler (cmd/batch.go, uploadFilesWithConcurrency)

The Go scheduler feeds every file path into a buffered channel (capacity =
file count), closes it, and lets W worker goroutines each repeatedly pull
one path, call the backend's UploadFile, and append the returned result to
a mutex-guarded slice; the result is appended whether or not the upload
failed (UploadFile always returns a non-nil result).  The model is a small
step relation on a scheduler state — the remaining queue (the channel, in
order), the tasks currently held by workers (at most W), and the collected
results — quantified over every interleaving.  The per-worker upload
function is an arbitrary `up : String → UploadResult`, so a claim proved
for all `up` holds whatever mixture of failures and successes the backend
produces. -/

/-- The shared state of the worker pool. -/
structure SchedState where
  queue : List String
  inFlight : List String
  results : List UploadResult

/-- One scheduling event: a worker pulls the next queued task (only when
fewer than W tasks are in flight), or a worker finishes the task it holds
and appends that task's result to the shared result slice. -/
inductive SchedStep (W : Nat) (up : String → UploadResult) :
    SchedState → SchedState → Prop where
  | pull {f : String} {rest infl : List String} {res : List UploadResult}
      (hW : infl.length < W) :
      SchedStep W up ⟨f :: rest, infl, res⟩ ⟨rest, f :: infl, res⟩
  | done {q : List String} {infl₁ infl₂ : List String} {f : String}
      {res : List UploadResult} :
      SchedStep W up ⟨q, infl₁ ++ f :: infl₂, res⟩ ⟨q, infl₁ ++ infl₂, up f :: res⟩

/-- All interleavings of the worker pool. -/
def SchedReaches (W : Nat) (up : String → UploadResult) :
    SchedState → SchedState → Prop :=
  Relation.ReflTransGen (SchedStep W up)

/-- The scheduler's starting state: every file queued, no worker busy, no
result collected. -/
def initState (files : List String) : SchedState := ⟨files, [], []⟩

/-- The conserved quantity of the pool: the base names of the queued and
in-flight tasks together with the file names of the collected results. -/
def namesOf (s : SchedState) : List String :=
  s.queue.map goBase ++ s.inFlight.map goBase ++ s.results.map UploadResult.fileName

/-- Moving an element from the middle segment of a three-segment
concatenation to the head of the last segment is a permutation. -/
theorem middle_shift {α : Type} (a : α) (q i₁ i₂ r : List α) :
    (q ++ (i₁ ++ i₂) ++ (a :: r)).Perm (q ++ (i₁ ++ a :: i₂) ++ r) := by
  have h1 : (q ++ (i₁ ++ i₂) ++ (a :: r)).Perm (a :: (q ++ (i₁ ++ i₂) ++ r)) :=
    List.perm_middle
  have h2 : (q ++ (i₁ ++ a :: i₂)).Perm (a :: (q ++ (i₁ ++ i₂))) := by
    have h2a : (q ++ (i₁ ++ a :: i₂)).Perm (q ++ (a :: (i₁ ++ i₂))) :=
      List.Perm.append_left q List.perm_middle
    exact h2a.trans List.perm_middle
  exact h1.trans ((h2.append_right r).symm)

/-- Each scheduling event permutes the conserved name list. -/
theorem step_names_perm {W : Nat} {up : String → UploadResult}
    (hname : ∀ f, (up f).fileName = goBase f) {s t : SchedState}
    (h : SchedStep W up s t) : (namesOf t).Perm (namesOf s) := by
  cases h with
  | pull hW =>
    simp only [namesOf, List.map_cons, List.cons_append]
    exact List.perm_middle.append_right _
  | done =>
    rename_i q infl₁ infl₂ f res
    simp only [namesOf, List.map_cons, List.map_append, hname]
    exact middle_shift (goBase f) (q.map goBase) (infl₁.map goBase)
      (infl₂.map goBase) (res.map UploadResult.fileName)

/-- The conserved name list is preserved (up to permutation) along every
run of the pool. -/
theorem reaches_names_perm {W : Nat} {up : String → UploadResult}
    (hname : ∀ f, (up f).fileName = goBase f) {s t : SchedState}
    (h : SchedReaches W up s t) : (namesOf t).Perm (namesOf s) := by
  induction h with
  | refl => exact List.Perm.refl _
  | tail _ hstep ih => exact (step_names_perm hname hstep).trans ih

/-- With at least one worker, the pool can drain any queue: the sequential
schedule (pull one task, finish it, repeat) reaches a terminal state. -/
theorem sched_run_exists {W : Nat} {up : String → UploadResult} (hW : 0 < W) :
    ∀ (files : List String) (res : List UploadResult),
      SchedReaches W up ⟨files, [], res⟩ ⟨[], [], (files.map up).reverse ++ res⟩
  | [], res => by
    simpa using (Relation.ReflTransGen.refl :
      SchedReaches W up ⟨[], [], res⟩ ⟨[], [], res⟩)
  | f :: fs, res => by
    have s1 : SchedStep W up ⟨f :: fs, [], res⟩ ⟨fs, [f], res⟩ :=
      .pull (by simpa using hW)
    have s2 : SchedStep W up ⟨fs, [f], res⟩ ⟨fs, [], up f :: res⟩ :=
      @SchedStep.done W up fs [] [] f res
    have rest : SchedReaches W up ⟨fs, [], up f :: res⟩
        ⟨[], [], (fs.map up).reverse ++ (up f :: res)⟩ :=
      sched_run_exists hW fs (up f :: res)
    have heq : ((f :: fs).map up).reverse ++ res = (fs.map up).reverse ++ (up f :: res) := by
      simp
    rw [heq]
    exact Relation.ReflTransGen.head s1 (Relation.ReflTransGen.head s2 rest)

/-- C1: for every file batch, every worker count W ≥ 1 and every upload
function tagging its result with the file's base name (which both backends
do), the pool can run to completion, and every completed run — whatever
interleaving, and whatever mixture of per-task failures and successes `up`
returns — collects exactly one result per input file: the result count
equals the file count, and the collected file names are a permutation of
(hence set-equal to) the base names of the input paths.  A task's failure
is just a result with `success = false`; it removes nothing from the queue
of the other tasks. -/
theorem uploadFilesWithConcurrency_spec (W : Nat) (up : String → UploadResult)
    (files : List String) (hW : 1 ≤ W)
    (hname : ∀ f, (up f).fileName = goBase f) :
    (∃ s, SchedReaches W up (initState files) s ∧ s.queue = [] ∧ s.inFlight = [])
    ∧ (∀ s, SchedReaches W up (initState files) s → s.queue = [] → s.inFlight = [] →
        s.results.length = files.length
        ∧ (s.results.map UploadResult.fileName).Perm (files.map goBase)
        ∧ (∀ n, n ∈ s.results.map UploadResult.fileName ↔ n ∈ files.map goBase)) := by
  constructor
  · exact ⟨⟨[], [], (files.map up).reverse ++ []⟩, sched_run_exists hW files [], rfl, rfl⟩
  · intro s hreach hq hfl
    have hperm : (namesOf s).Perm (namesOf (initState files)) :=
      reaches_names_perm hname hreach
    obtain ⟨q, fl, res⟩ := s
    simp only at hq hfl
    subst hq; subst hfl
    simp only [namesOf, initState, List.map_nil, List.nil_append, List.append_nil]
      at hperm
    refine ⟨?_, hperm, fun n => hperm.mem_iff⟩
    have := hperm.length_eq
    simpa using this

/-- Witness for C1: one worker, a two-file batch and an upload function
that fails every task still yields a completable pool whose completed runs
return exactly two results named after the input files. -/
theorem uploadFilesWithConcurrency_spec_witness :
    (∃ s, SchedReaches 1
        (fun f => ⟨goBase f, "", false, some .noFileUrl⟩)
        (initState ["dir/a.png", "dir/b.jpg"]) s ∧ s.queue = [] ∧ s.inFlight = [])
    ∧ (∀ s, SchedReaches 1 (fun f => ⟨goBase f, "", false, some .noFileUrl⟩)
        (initState ["dir/a.png", "dir/b.jpg"]) s → s.queue = [] → s.inFlight = [] →
        s.results.length = ["dir/a.png", "dir/b.jpg"].length
        ∧ (s.results.map UploadResult.fileName).Perm
            (["dir/a.png", "dir/b.jpg"].map goBase)
        ∧ (∀ n, n ∈ s.results.map UploadResult.fileName ↔
            n ∈ ["dir/a.png", "dir/b.jpg"].map goBase)) :=
  uploadFilesWithConcurrency_spec 1 (fun f => ⟨goBase f, "", false, some .noFileUrl⟩)
    ["dir/a.png", "dir/b.jpg"] (by decide) (fun f => rfl)

/-- Witness for C2 at a concrete filesystem: a 10-byte "logo.png" validates,
and a directory at "assets" is rejected as a directory. -/
theorem validateFile_spec_witness :
    ValidateFile [("logo.png", .file 10), ("assets", .dir)] "logo.png" = .ok ()
    ∧ ValidateFile [("logo.png", .file 10), ("assets", .dir)] "assets" =
        .error (.isDirectory "assets") := by
  constructor
  · exact (validateFile_spec [("logo.png", .file 10), ("assets", .dir)] "logo.png").1.2
      ⟨10, by decide, by decide, by decide, by decide⟩
  · exact (validateFile_spec [("logo.png", .file 10), ("assets", .dir)] "assets").2.2.1
      (by decide)

end VFM
